import Mathlib

/-!
Verification of the distance-filter core of `tracking-adsb` (files
`src/airports/airports.py` and `src/airports/airports-data.py`, whose
`haversine` and filtering loop are textually identical).

Python floats are modelled as real numbers; Python exceptions are modelled
with `Except PyExc`.  `math.sqrt` raises `ValueError` on a negative
argument, so it is embedded as a fallible operation; `float(v)` raises
`KeyError`/`ValueError`/`TypeError` depending on the shape of `v`, and the
filter loop catches only `(KeyError, ValueError)`.
-/

namespace Airports

/-- The Python exception classes relevant to this program. -/
inductive PyExc where
  | keyError
  | valueError
  | typeError
deriving DecidableEq

/-- A JSON value as produced by `json.load`: number, string, boolean,
null, array or object.  Numbers are modelled as reals. -/
inductive JVal where
  | num (x : ℝ)
  | str (s : String)
  | boolv (b : Bool)
  | null
  | arr (elems : List JVal)
  | obj (fields : List (String × JVal))

/-- An airport record: a JSON object, i.e. a finite mapping from field
names to JSON values (keyed association list, unique keys). -/
abbrev Rec := List (String × JVal)

/-- An airport table: mapping from airport code to record, in iteration
order (Python dict preserves insertion order). -/
abbrev Table := List (String × Rec)

/-- Digit-by-digit decimal parser: `some` of the value when every
character is a digit (and the list is nonempty), `none` otherwise. -/
def parseDigits : List Char → ℕ → Option ℕ
  | [], acc => some acc
  | c :: rest, acc =>
    if c.isDigit then parseDigits rest (acc * 10 + (c.toNat - 48)) else none

/-- Model of Python `float(s)` on a string argument: numeric-literal
strings parse to their value, anything else raises `ValueError`.
The model covers the optionally signed integer-literal fragment of
Python float syntax (the claims only distinguish parse success from
parse failure). -/
def parseFloat (s : String) : Option ℝ :=
  match s.data with
  | [] => none
  | '-' :: rest =>
    match rest with
    | [] => none
    | _ => (parseDigits rest 0).map (fun n => -(n : ℝ))
  | cs => (parseDigits cs 0).map (fun n => (n : ℝ))

/-- Model of Python `float(v)` on a JSON value: numbers coerce to
themselves, booleans to 0/1, strings via `parseFloat` (raising
`ValueError` on failure), and `null`/arrays/objects raise `TypeError`
(which the filter loop in the source does NOT catch). -/
def pyFloat : JVal → Except PyExc ℝ
  | .num x => .ok x
  | .boolv b => .ok (if b then 1 else 0)
  | .str s =>
    match parseFloat s with
    | some x => .ok x
    | none => .error .valueError
  | .null => .error .typeError
  | .arr _ => .error .typeError
  | .obj _ => .error .typeError

/-- Model of Python `airport[key]`: field lookup raising `KeyError`
when the field is absent. -/
def lookupField (rec : Rec) (key : String) : Except PyExc JVal :=
  match rec.find? (fun kv => kv.1 == key) with
  | some kv => .ok kv.2
  | none => .error .keyError

/-- Lookup then numeric coercion, modelling float applied to a field. -/
def coerceField (rec : Rec) (key : String) : Except PyExc ℝ :=
  match lookupField rec key with
  | .ok v => pyFloat v
  | .error e => .error e

/-- Coercion of the lat and lon fields in the left-to-right
evaluation order of the source: `lat` is coerced first, so its
exception wins. -/
def coerceLatLon (rec : Rec) : Except PyExc (ℝ × ℝ) :=
  match coerceField rec "lat" with
  | .error e => .error e
  | .ok la =>
    match coerceField rec "lon" with
    | .error e => .error e
    | .ok lo => .ok (la, lo)

/-- Model of `math.radians`: degrees times pi over 180. -/
noncomputable def radians (x : ℝ) : ℝ := x * (Real.pi / 180)

/-- Model of Python `math.sqrt`: raises `ValueError` on a negative
argument, otherwise returns the real square root. -/
noncomputable def msqrt (x : ℝ) : Except PyExc ℝ :=
  if x < 0 then .error .valueError else .ok (Real.sqrt x)

/-- Model of Python `math.atan2 y x` (the C library `atan2`, signed
zeros excepted). -/
noncomputable def atan2 (y x : ℝ) : ℝ :=
  if 0 < x then Real.arctan (y / x)
  else if x < 0 then
    (if 0 ≤ y then Real.arctan (y / x) + Real.pi
     else Real.arctan (y / x) - Real.pi)
  else
    (if 0 < y then Real.pi / 2
     else if y < 0 then -(Real.pi / 2)
     else 0)

/-- The function `haversine` from the source, with the possible
`ValueError` of `math.sqrt` tracked (`math.sqrt a` is evaluated
before `math.sqrt (1 - a)`, so its exception wins). -/
noncomputable def haversine (lat1 lon1 lat2 lon2 : ℝ) : Except PyExc ℝ :=
  let R : ℝ := 6371
  let dLat := radians (lat2 - lat1)
  let dLon := radians (lon2 - lon1)
  let a := Real.sin (dLat / 2) * Real.sin (dLat / 2) +
    Real.cos (radians lat1) * Real.cos (radians lat2) *
      Real.sin (dLon / 2) * Real.sin (dLon / 2)
  match msqrt a, msqrt (1 - a) with
  | .ok sa, .ok sb => .ok (R * (2 * atan2 sa sb))
  | .error e, _ => .error e
  | .ok _, .error e => .error e

/-- The haversine formula exactly as the specification writes it
(section 4.1): `a = sin²(dLat/2) + cos(radians lat1)·cos(radians lat2)·
sin²(dLon/2)`, `c = 2·atan2(√a, √(1-a))`, `distance = 6371 · c`.
Total, since real `Real.sqrt` is total. -/
noncomputable def haversineSpec (lat1 lon1 lat2 lon2 : ℝ) : ℝ :=
  let dLat := radians (lat2 - lat1)
  let dLon := radians (lon2 - lon1)
  let a := Real.sin (dLat / 2) ^ 2 +
    Real.cos (radians lat1) * Real.cos (radians lat2) * Real.sin (dLon / 2) ^ 2
  6371 * (2 * atan2 (Real.sqrt a) (Real.sqrt (1 - a)))

/-- One iteration of the filter loop body up to the inclusion decision:
coerce `lat` then `lon`, compute the distance, and report whether
`distance <= radius_km`; any exception is propagated to the caller
(the loop decides which ones to catch). -/
noncomputable def processRecord (clat clon r : ℝ) (rec : Rec) : Except PyExc Bool :=
  match coerceLatLon rec with
  | .error e => .error e
  | .ok (la, lo) =>
    match haversine clat clon la lo with
    | .error e => .error e
    | .ok d => .ok (if d ≤ r then true else false)

/-- The filter loop from `main`: iterate over the table in order,
keep records whose distance is within the radius, silently skip
records raising `KeyError` or `ValueError`, and let any other
exception (`TypeError`) escape, aborting the whole computation. -/
noncomputable def filterWithinRadius : Table → ℝ → ℝ → ℝ → Except PyExc Table
  | [], _, _, _ => .ok []
  | (code, rec) :: rest, clat, clon, r =>
    match processRecord clat clon r rec with
    | .ok true =>
      match filterWithinRadius rest clat clon r with
      | .ok res => .ok ((code, rec) :: res)
      | .error e => .error e
    | .ok false => filterWithinRadius rest clat clon r
    | .error .keyError => filterWithinRadius rest clat clon r
    | .error .valueError => filterWithinRadius rest clat clon r
    | .error .typeError => .error .typeError

/-- The usage string printed by `main` on a wrong argument count. -/
def usageMsg : String := "Usage: python script.py latitude longitude distance_km"

/-- Outcome of the argument-handling prefix of `main`. -/
inductive CliOutcome where
  | usageExit (msg : String) (exitCode : Nat)
  | uncaught (e : PyExc)
  | run (lat lon radius : ℝ)

/-- The argument-handling prefix of `main`: `sys.argv` (script name
included) must have exactly 4 elements, otherwise the usage message is
printed and the process exits with status 1; then the three positional
arguments are converted with `float`, left to right, and a conversion
failure raises an uncaught `ValueError` (no usage message). -/
def parseArgs (argv : List String) : CliOutcome :=
  match argv with
  | [_, a1, a2, a3] =>
    (match parseFloat a1 with
     | none => .uncaught .valueError
     | some lat =>
       match parseFloat a2 with
       | none => .uncaught .valueError
       | some lon =>
         match parseFloat a3 with
         | none => .uncaught .valueError
         | some r => .run lat lon r)
  | _ => .usageExit usageMsg 1

/-- A record passes the filter: its `lat`/`lon` coerce successfully and
its haversine distance from the centre is within the radius. -/
def Passes (clat clon r : ℝ) (rec : Rec) : Prop :=
  ∃ la lo, coerceLatLon rec = .ok (la, lo) ∧ haversineSpec clat clon la lo ≤ r

/-! ### Range of the haversine intermediate value `a` -/

/-- Half-angle identity in product form. -/
lemma sin_half_mul_self (y : ℝ) :
    Real.sin (y / 2) * Real.sin (y / 2) = (1 - Real.cos y) / 2 := by
  have h := Real.cos_two_mul (y / 2)
  have h2 : 2 * (y / 2) = y := by ring
  rw [h2] at h
  have h3 := Real.cos_sq' (y / 2)
  have h4 : Real.sin (y / 2) ^ 2 = Real.sin (y / 2) * Real.sin (y / 2) := pow_two _
  linarith [h, h3, h4]

/-- The haversine intermediate `a = sin²(dLat/2) + cos p · cos q · sin²(u)`
lies in `[0, 1]` for all real `p`, `q`, `u` — even for latitudes far outside
the geographic range.  This is what makes both `math.sqrt` calls safe. -/
lemma hav_a_nonneg_le_one (p q u : ℝ) :
    0 ≤ Real.sin ((q - p) / 2) * Real.sin ((q - p) / 2) +
        Real.cos p * Real.cos q * Real.sin u * Real.sin u ∧
      Real.sin ((q - p) / 2) * Real.sin ((q - p) / 2) +
        Real.cos p * Real.cos q * Real.sin u * Real.sin u ≤ 1 := by
  have hs := sin_half_mul_self (q - p)
  have hcc : Real.cos p * Real.cos q = (Real.cos (q - p) + Real.cos (q + p)) / 2 := by
    rw [Real.cos_sub, Real.cos_add]; ring
  have hsu0 : 0 ≤ Real.sin u * Real.sin u := mul_self_nonneg _
  have hsu1 : Real.sin u * Real.sin u ≤ 1 := by
    nlinarith [Real.sin_le_one u, Real.neg_one_le_sin u]
  have h1 := Real.cos_le_one (q - p)
  have h2 := Real.neg_one_le_cos (q - p)
  have h3 := Real.cos_le_one (q + p)
  have h4 := Real.neg_one_le_cos (q + p)
  rw [hs, hcc]
  constructor
  · nlinarith [mul_nonneg (by linarith : (0:ℝ) ≤ 1 - Real.sin u * Real.sin u)
        (by linarith : (0:ℝ) ≤ 1 - Real.cos (q - p)),
      mul_nonneg hsu0 (by linarith : (0:ℝ) ≤ 1 + Real.cos (q + p))]
  · nlinarith [mul_nonneg (by linarith : (0:ℝ) ≤ 1 - Real.sin u * Real.sin u)
        (by linarith : (0:ℝ) ≤ 1 + Real.cos (q - p)),
      mul_nonneg hsu0 (by linarith : (0:ℝ) ≤ 1 - Real.cos (q + p))]

lemma msqrt_eq_of_nonneg {x : ℝ} (h : 0 ≤ x) : msqrt x = .ok (Real.sqrt x) := by
  unfold msqrt
  rw [if_neg (not_lt.2 h)]

/-- The `haversine` of the code never raises: it always returns exactly the
value of the specification formula `haversineSpec`. -/
lemma haversine_eq (lat1 lon1 lat2 lon2 : ℝ) :
    haversine lat1 lon1 lat2 lon2 = .ok (haversineSpec lat1 lon1 lat2 lon2) := by
  have hd : radians (lat2 - lat1) = radians lat2 - radians lat1 := by
    unfold radians; ring
  have hb := hav_a_nonneg_le_one (radians lat1) (radians lat2) (radians (lon2 - lon1) / 2)
  simp only [haversine, haversineSpec, hd, pow_two, mul_assoc]
  simp only [mul_assoc] at hb
  rw [msqrt_eq_of_nonneg hb.1, msqrt_eq_of_nonneg (by linarith [hb.2])]

/-- For nonnegative arguments, `atan2 y x` lies in `[0, π/2]`. -/
lemma atan2_nonneg_le {y x : ℝ} (hy : 0 ≤ y) (hx : 0 ≤ x) :
    0 ≤ atan2 y x ∧ atan2 y x ≤ Real.pi / 2 := by
  unfold atan2
  rcases lt_or_eq_of_le hx with hx1 | hx1
  · rw [if_pos hx1]
    refine ⟨?_, le_of_lt (Real.arctan_lt_pi_div_two _)⟩
    have hq : (0:ℝ) ≤ y / x := div_nonneg hy (le_of_lt hx1)
    have := Real.arctan_strictMono.monotone hq
    rwa [Real.arctan_zero] at this
  · rw [if_neg (by rw [← hx1]; exact lt_irrefl 0), if_neg (by rw [← hx1]; exact lt_irrefl 0)]
    rcases lt_or_eq_of_le hy with hy1 | hy1
    · rw [if_pos hy1]
      exact ⟨le_of_lt (by positivity), le_refl _⟩
    · rw [if_neg (by rw [← hy1]; exact lt_irrefl 0), if_neg (by rw [← hy1]; exact lt_irrefl 0)]
      exact ⟨le_refl _, by positivity⟩

/-- The specification formula always yields a value in `[0, 6371·π]`. -/
lemma haversineSpec_bounds (lat1 lon1 lat2 lon2 : ℝ) :
    0 ≤ haversineSpec lat1 lon1 lat2 lon2 ∧
      haversineSpec lat1 lon1 lat2 lon2 ≤ 6371 * Real.pi := by
  unfold haversineSpec
  have h := atan2_nonneg_le (y := Real.sqrt (Real.sin (radians (lat2 - lat1) / 2) ^ 2 +
      Real.cos (radians lat1) * Real.cos (radians lat2) *
        Real.sin (radians (lon2 - lon1) / 2) ^ 2))
    (x := Real.sqrt (1 - (Real.sin (radians (lat2 - lat1) / 2) ^ 2 +
      Real.cos (radians lat1) * Real.cos (radians lat2) *
        Real.sin (radians (lon2 - lon1) / 2) ^ 2)))
    (Real.sqrt_nonneg _) (Real.sqrt_nonneg _)
  constructor
  · nlinarith [h.1, h.2]
  · nlinarith [h.1, h.2]

/-! ### Characterisation of the filter loop -/

lemma processRecord_coerce_ok {rec : Rec} {la lo : ℝ} (clat clon r : ℝ)
    (h : coerceLatLon rec = .ok (la, lo)) :
    processRecord clat clon r rec =
      .ok (if haversineSpec clat clon la lo ≤ r then true else false) := by
  simp only [processRecord, h, haversine_eq]

lemma processRecord_coerce_err {rec : Rec} {e : PyExc} (clat clon r : ℝ)
    (h : coerceLatLon rec = .error e) :
    processRecord clat clon r rec = .error e := by
  unfold processRecord
  rw [h]

/-- Membership in a successfully produced filter result: exactly the
table entries whose record passes the distance test. -/
lemma mem_filter_iff {table : Table} {clat clon r : ℝ} {res : Table}
    (h : filterWithinRadius table clat clon r = .ok res) (code : String) (rec : Rec) :
    (code, rec) ∈ res ↔ (code, rec) ∈ table ∧ Passes clat clon r rec := by
  induction table generalizing res with
  | nil =>
    simp only [filterWithinRadius] at h
    injection h with h
    subst h
    simp
  | cons head rest ih =>
    obtain ⟨c₀, r₀⟩ := head
    cases hc : coerceLatLon r₀ with
    | error e =>
      cases e with
      | keyError =>
        simp only [filterWithinRadius, processRecord_coerce_err clat clon r hc] at h
        rw [ih h]
        constructor
        · rintro ⟨hm, hp⟩
          exact ⟨List.mem_cons_of_mem _ hm, hp⟩
        · rintro ⟨hm, hp⟩
          rcases List.mem_cons.1 hm with heq | hm'
          · exfalso
            obtain ⟨la, lo, hco, -⟩ := hp
            injection heq with h1 h2
            rw [h2] at hco
            rw [hc] at hco
            cases hco
          · exact ⟨hm', hp⟩
      | valueError =>
        simp only [filterWithinRadius, processRecord_coerce_err clat clon r hc] at h
        rw [ih h]
        constructor
        · rintro ⟨hm, hp⟩
          exact ⟨List.mem_cons_of_mem _ hm, hp⟩
        · rintro ⟨hm, hp⟩
          rcases List.mem_cons.1 hm with heq | hm'
          · exfalso
            obtain ⟨la, lo, hco, -⟩ := hp
            injection heq with h1 h2
            rw [h2] at hco
            rw [hc] at hco
            cases hco
          · exact ⟨hm', hp⟩
      | typeError =>
        simp only [filterWithinRadius, processRecord_coerce_err clat clon r hc] at h
        cases h
    | ok p =>
      obtain ⟨la, lo⟩ := p
      by_cases hle : haversineSpec clat clon la lo ≤ r
      · simp only [filterWithinRadius, processRecord_coerce_ok clat clon r hc, if_pos hle] at h
        cases hrest : filterWithinRadius rest clat clon r with
        | error e =>
          rw [hrest] at h
          cases h
        | ok res' =>
          rw [hrest] at h
          injection h with h
          subst h
          have hpass : Passes clat clon r r₀ := ⟨la, lo, hc, hle⟩
          simp only [List.mem_cons]
          constructor
          · rintro (heq | hm)
            · refine ⟨Or.inl heq, ?_⟩
              injection heq with h1 h2
              rw [h2]
              exact hpass
            · have := (ih hrest).1 hm
              exact ⟨Or.inr this.1, this.2⟩
          · rintro ⟨heq | hm, hp⟩
            · exact Or.inl heq
            · exact Or.inr ((ih hrest).2 ⟨hm, hp⟩)
      · simp only [filterWithinRadius, processRecord_coerce_ok clat clon r hc, if_neg hle] at h
        rw [ih h]
        constructor
        · rintro ⟨hm, hp⟩
          exact ⟨List.mem_cons_of_mem _ hm, hp⟩
        · rintro ⟨hm, hp⟩
          rcases List.mem_cons.1 hm with heq | hm'
          · exfalso
            obtain ⟨la', lo', hco, hle'⟩ := hp
            injection heq with h1 h2
            rw [h2] at hco
            rw [hc] at hco
            injection hco with hco
            injection hco with hla hlo
            rw [← hla, ← hlo] at hle'
            exact hle hle'
          · exact ⟨hm', hp⟩

/-- If no record in the table makes `float` raise `TypeError`, the filter
returns normally (`KeyError` and `ValueError` are caught by the loop). -/
lemma filter_ok_of_no_typeError (table : Table) (clat clon r : ℝ)
    (hall : ∀ code rec, (code, rec) ∈ table → coerceLatLon rec ≠ .error .typeError) :
    ∃ res, filterWithinRadius table clat clon r = .ok res := by
  induction table with
  | nil => exact ⟨[], rfl⟩
  | cons head rest ih =>
    obtain ⟨c₀, r₀⟩ := head
    have hall' : ∀ code rec, (code, rec) ∈ rest → coerceLatLon rec ≠ .error .typeError :=
      fun code rec hm => hall code rec (List.mem_cons_of_mem _ hm)
    obtain ⟨res, hres⟩ := ih hall'
    cases hc : coerceLatLon r₀ with
    | error e =>
      cases e with
      | keyError =>
        exact ⟨res, by simp only [filterWithinRadius, processRecord_coerce_err clat clon r hc]; exact hres⟩
      | valueError =>
        exact ⟨res, by simp only [filterWithinRadius, processRecord_coerce_err clat clon r hc]; exact hres⟩
      | typeError =>
        exact absurd hc (hall c₀ r₀ (List.mem_cons_self _ _))
    | ok p =>
      obtain ⟨la, lo⟩ := p
      by_cases hle : haversineSpec clat clon la lo ≤ r
      · refine ⟨(c₀, r₀) :: res, ?_⟩
        simp only [filterWithinRadius, processRecord_coerce_ok clat clon r hc, if_pos hle, hres]
      · refine ⟨res, ?_⟩
        simp only [filterWithinRadius, processRecord_coerce_ok clat clon r hc, if_neg hle]
        exact hres

/-! ### Concrete evaluations -/

/-- Record at the origin (airport `AAA` of the specification). -/
def recA : Rec := [("lat", JVal.num 0), ("lon", JVal.num 0)]

/-- Record at latitude 0, longitude 1 (airport `BBB` of the specification). -/
def recB : Rec := [("lat", JVal.num 0), ("lon", JVal.num 1)]

/-- Record whose `lat` field is JSON `null`: `float(None)` raises
`TypeError`, which the `except (KeyError, ValueError)` clause of the
loop does not catch. -/
def recNull : Rec := [("lat", JVal.null), ("lon", JVal.num 0)]

/-- Record with the `lon` field missing. -/
def recNoLon : Rec := [("lat", JVal.num 0)]

/-- Record whose `lat` is a non-numeric string. -/
def recBadStr : Rec := [("lat", JVal.str "abc"), ("lon", JVal.num 0)]

lemma coerce_recA : coerceLatLon recA = .ok (0, 0) := rfl

lemma coerce_recB : coerceLatLon recB = .ok (0, 1) := rfl

lemma coerce_recNull : coerceLatLon recNull = .error .typeError := rfl

lemma coerce_recNoLon : coerceLatLon recNoLon = .error .keyError := rfl

lemma coerce_recBadStr : coerceLatLon recBadStr = .error .valueError := rfl

lemma haversineSpec_zero : haversineSpec 0 0 0 0 = 0 := by
  unfold haversineSpec radians atan2
  norm_num [Real.sqrt_zero, Real.sqrt_one, Real.arctan_zero]

/-- One degree of longitude at the equator: exactly `6371 · π/180`
kilometres (≈ 111.19 km). -/
lemma haversineSpec_one_deg : haversineSpec 0 0 0 1 = 6371 * (Real.pi / 180) := by
  have hpi := Real.pi_pos
  have hθ0 : (0:ℝ) < Real.pi / 180 / 2 := by linarith
  have hθπ : Real.pi / 180 / 2 < Real.pi / 2 := by linarith
  have hθπ2 : Real.pi / 180 / 2 < Real.pi := by linarith
  have hsin : 0 ≤ Real.sin (Real.pi / 180 / 2) :=
    le_of_lt (Real.sin_pos_of_pos_of_lt_pi hθ0 hθπ2)
  have hcos : 0 < Real.cos (Real.pi / 180 / 2) :=
    Real.cos_pos_of_mem_Ioo ⟨by linarith, hθπ⟩
  have hcs : 1 - Real.sin (Real.pi / 180 / 2) ^ 2 = Real.cos (Real.pi / 180 / 2) ^ 2 := by
    linarith [Real.sin_sq_add_cos_sq (Real.pi / 180 / 2)]
  unfold haversineSpec radians
  norm_num
  rw [hcs, Real.sqrt_sq hsin, Real.sqrt_sq (le_of_lt hcos)]
  unfold atan2
  rw [if_pos hcos, ← Real.tan_eq_sin_div_cos, Real.arctan_tan (by linarith) hθπ]
  ring

/-- The distance `6371 * (pi/180)`, about 111.19, exceeds 100. -/
lemma one_deg_dist_gt_100 : ¬ (6371 * (Real.pi / 180) ≤ 100) := by
  intro hcon
  linarith [Real.pi_gt_three]

lemma processRecord_recA (r : ℝ) (hr : 0 ≤ r) : processRecord 0 0 r recA = .ok true := by
  rw [processRecord_coerce_ok 0 0 r coerce_recA, haversineSpec_zero, if_pos hr]

lemma processRecord_recB_100 : processRecord 0 0 100 recB = .ok false := by
  rw [processRecord_coerce_ok 0 0 100 coerce_recB, haversineSpec_one_deg,
    if_neg one_deg_dist_gt_100]

/-- A single origin record is kept for any nonnegative radius. -/
lemma filter_single_recA (r : ℝ) (hr : 0 ≤ r) :
    filterWithinRadius [("AAA", recA)] 0 0 r = .ok [("AAA", recA)] := by
  simp only [filterWithinRadius, processRecord_recA r hr]

lemma haversine_zero : haversine 0 0 0 0 = .ok 0 := by
  rw [haversine_eq, haversineSpec_zero]

/-- Mixed table: one good record, one record with `lon` missing, one
record with a non-numeric `lat` string. -/
def tblMixed : Table := [("GOOD", recA), ("NOLON", recNoLon), ("BADSTR", recBadStr)]

/-! ### Claims -/

/-- Claim C1: whenever the filter returns a result, an entry of the table
whose record has `lat`/`lon` coercing to `(la, lo)` and whose haversine
distance from the centre is `d` appears in the result iff `d ≤ r`
(inclusive boundary: a record at distance exactly `r` is included). -/
theorem filter_mem_iff_dist_le (table : Table) (clat clon r : ℝ) (res : Table)
    (hok : filterWithinRadius table clat clon r = .ok res)
    (code : String) (rec : Rec) (la lo d : ℝ)
    (hmem : (code, rec) ∈ table)
    (hco : coerceLatLon rec = .ok (la, lo))
    (hd : haversine clat clon la lo = .ok d) :
    (code, rec) ∈ res ↔ d ≤ r := by
  rw [haversine_eq] at hd
  injection hd with hd
  rw [mem_filter_iff hok]
  constructor
  · rintro ⟨-, la', lo', hco', hle⟩
    rw [hco] at hco'
    injection hco' with h
    injection h with h1 h2
    rw [← h1, ← h2] at hle
    rw [← hd]
    exact hle
  · intro hle
    exact ⟨hmem, la, lo, hco, by rw [hd]; exact hle⟩

/-- Witness for C1: a single record at the origin, centre `(0,0)`,
radius `0` — the distance of the record equals the radius exactly and it is
included. -/
theorem filter_mem_iff_dist_le_inst :
    ("AAA", recA) ∈ [("AAA", recA)] ↔ (0:ℝ) ≤ 0 :=
  filter_mem_iff_dist_le [("AAA", recA)] 0 0 0 [("AAA", recA)]
    (filter_single_recA 0 le_rfl) "AAA" recA 0 0 0
    (List.mem_cons_self _ _) coerce_recA haversine_zero

/-- Claim C2 (counterexample): a record whose `lat` is JSON `null`
cannot be coerced to float, yet it is NOT silently skipped — `float(None)`
raises `TypeError`, which the `except (KeyError, ValueError)` clause does
not catch, so the error escapes to the caller instead of the entry being
dropped. -/
theorem filter_typeError_escapes :
    filterWithinRadius [("XXX", recNull)] 0 0 100 = .error .typeError := by
  simp only [filterWithinRadius, processRecord_coerce_err 0 0 100 coerce_recNull]

/-- Claim C2 (amended): entries whose `lat`/`lon` coercion raises
`KeyError` (missing field) or `ValueError` (unparseable string) are
silently excluded and the filter returns normally, provided no record
raises `TypeError`. -/
theorem filter_skips_caught_errors (table : Table) (clat clon r : ℝ)
    (hall : ∀ code rec, (code, rec) ∈ table → coerceLatLon rec ≠ .error .typeError) :
    ∃ res, filterWithinRadius table clat clon r = .ok res ∧
      ∀ code rec, (code, rec) ∈ table →
        (∃ e, coerceLatLon rec = .error e) → (code, rec) ∉ res := by
  obtain ⟨res, hres⟩ := filter_ok_of_no_typeError table clat clon r hall
  refine ⟨res, hres, ?_⟩
  rintro code rec hmem ⟨e, he⟩ hin
  obtain ⟨-, la, lo, hco, -⟩ := (mem_filter_iff hres code rec).1 hin
  rw [he] at hco
  cases hco

/-- Witness for the amended C2: a table with a good record, a record
missing `lon`, and a record with a non-numeric `lat` string filters
normally, dropping the two malformed records. -/
theorem filter_skips_caught_errors_inst :
    ∃ res, filterWithinRadius tblMixed 0 0 100 = .ok res ∧
      ∀ code rec, (code, rec) ∈ tblMixed →
        (∃ e, coerceLatLon rec = .error e) → (code, rec) ∉ res :=
  filter_skips_caught_errors tblMixed 0 0 100 (by
    intro code rec hm
    simp only [tblMixed, List.mem_cons, List.not_mem_nil, or_false] at hm
    rcases hm with h | h | h
    · injection h with h1 h2
      rw [h2, coerce_recA]
      intro hcon
      exact Except.noConfusion hcon
    · injection h with h1 h2
      rw [h2, coerce_recNoLon]
      intro hcon
      injection hcon with hcon
      exact PyExc.noConfusion hcon
    · injection h with h1 h2
      rw [h2, coerce_recBadStr]
      intro hcon
      injection hcon with hcon
      exact PyExc.noConfusion hcon)

/-- Claim C3: `haversine` returns (without raising) exactly the value of
the haversine formula of the specification with Earth radius 6371 km, in
the exact-real model of the arithmetic of the program. -/
theorem haversine_matches_spec_formula (lat1 lon1 lat2 lon2 : ℝ) :
    haversine lat1 lon1 lat2 lon2 = .ok (haversineSpec lat1 lon1 lat2 lon2) :=
  haversine_eq lat1 lon1 lat2 lon2

/-- Claim C4: `haversine` never raises — for all real inputs, including
coordinates far outside the valid latitude/longitude ranges, both
`math.sqrt` arguments are nonnegative and a numeric result is returned. -/
theorem haversine_total (lat1 lon1 lat2 lon2 : ℝ) :
    ∃ d, haversine lat1 lon1 lat2 lon2 = .ok d :=
  ⟨haversineSpec lat1 lon1 lat2 lon2, haversine_eq lat1 lon1 lat2 lon2⟩

/-- Claim C5: swapping the two endpoints leaves the haversine distance
unchanged. -/
theorem haversine_symm (lat1 lon1 lat2 lon2 : ℝ) :
    haversine lat1 lon1 lat2 lon2 = haversine lat2 lon2 lat1 lon1 := by
  have h1 : radians (lat1 - lat2) / 2 = -(radians (lat2 - lat1) / 2) := by
    unfold radians; ring
  have h2 : radians (lon1 - lon2) / 2 = -(radians (lon2 - lon1) / 2) := by
    unfold radians; ring
  have ha :
      Real.sin (radians (lat2 - lat1) / 2) * Real.sin (radians (lat2 - lat1) / 2) +
        Real.cos (radians lat1) * Real.cos (radians lat2) *
          Real.sin (radians (lon2 - lon1) / 2) * Real.sin (radians (lon2 - lon1) / 2) =
      Real.sin (radians (lat1 - lat2) / 2) * Real.sin (radians (lat1 - lat2) / 2) +
        Real.cos (radians lat2) * Real.cos (radians lat1) *
          Real.sin (radians (lon1 - lon2) / 2) * Real.sin (radians (lon1 - lon2) / 2) := by
    rw [h1, h2, Real.sin_neg, Real.sin_neg]
    ring
  simp only [haversine]
  rw [ha]

/-- Claim C6: the filter is monotone in the radius — for `r1 < r2`,
every entry (same key, same record) of the radius-`r1` result is also in
the radius-`r2` result. -/
theorem filter_monotone_radius (table : Table) (clat clon r1 r2 : ℝ) (res1 res2 : Table)
    (hr : r1 < r2)
    (h1 : filterWithinRadius table clat clon r1 = .ok res1)
    (h2 : filterWithinRadius table clat clon r2 = .ok res2)
    (code : String) (rec : Rec) (hm : (code, rec) ∈ res1) :
    (code, rec) ∈ res2 := by
  obtain ⟨hmem, la, lo, hco, hle⟩ := (mem_filter_iff h1 code rec).1 hm
  exact (mem_filter_iff h2 code rec).2 ⟨hmem, la, lo, hco, le_trans hle (le_of_lt hr)⟩

/-- Witness for C6 at radii `0 < 1` on a single origin record. -/
theorem filter_monotone_radius_inst : ("AAA", recA) ∈ [("AAA", recA)] :=
  filter_monotone_radius [("AAA", recA)] 0 0 0 1 [("AAA", recA)] [("AAA", recA)]
    (by norm_num) (filter_single_recA 0 le_rfl) (filter_single_recA 1 (by norm_num))
    "AAA" recA (List.mem_cons_self _ _)

/-- Claim C7: for the table `{AAA: (0,0), BBB: (0,1)}`, centre `(0,0)`
and radius 100, the result contains exactly `AAA`; `BBB` is excluded
because its distance `6371·π/180 ≈ 111.19` exceeds 100. -/
theorem filter_concrete_scenario :
    filterWithinRadius [("AAA", recA), ("BBB", recB)] 0 0 100 = .ok [("AAA", recA)] := by
  simp only [filterWithinRadius, processRecord_recA 100 (by norm_num), processRecord_recB_100]

/-- Claim C8: entries pass through the filter unchanged — every entry of
a result maps a key of the input table to the exact record value that key
had in the input table. -/
theorem filter_preserves_records (table : Table) (clat clon r : ℝ) (res : Table)
    (hok : filterWithinRadius table clat clon r = .ok res)
    (code : String) (rec : Rec) (hm : (code, rec) ∈ res) :
    (code, rec) ∈ table :=
  ((mem_filter_iff hok code rec).1 hm).1

/-- Witness for C8 on a single origin record. -/
theorem filter_preserves_records_inst : ("AAA", recA) ∈ [("AAA", recA)] :=
  filter_preserves_records [("AAA", recA)] 0 0 0 [("AAA", recA)]
    (filter_single_recA 0 le_rfl) "AAA" recA (List.mem_cons_self _ _)

/-- Claim C9 (counterexample): with the correct argument count but a
non-numeric first argument, the program does NOT print the usage
message — `float` raises an uncaught `ValueError` instead. -/
theorem parseArgs_nonnumeric_no_usage :
    parseArgs ["script.py", "abc", "0", "0"] = .uncaught .valueError := rfl

/-- Claim C9 (amended): a wrong argument count prints the usage message
on standard output and exits with status 1; a non-numeric argument among
exactly three positional arguments instead raises an uncaught
`ValueError` (non-zero interpreter exit, no usage message). -/
theorem parseArgs_invalid_behaviour (argv : List String) (p a1 a2 a3 : String) :
    (argv.length ≠ 4 → parseArgs argv = .usageExit usageMsg 1) ∧
    ((parseFloat a1 = none ∨ parseFloat a2 = none ∨ parseFloat a3 = none) →
      parseArgs [p, a1, a2, a3] = .uncaught .valueError) := by
  constructor
  · intro hlen
    rcases argv with - | ⟨b1, argv⟩
    · rfl
    rcases argv with - | ⟨b2, argv⟩
    · rfl
    rcases argv with - | ⟨b3, argv⟩
    · rfl
    rcases argv with - | ⟨b4, argv⟩
    · rfl
    rcases argv with - | ⟨b5, argv⟩
    · exact absurd rfl hlen
    · rfl
  · intro hp
    cases h1 : parseFloat a1 with
    | none => simp only [parseArgs, h1]
    | some v1 =>
      cases h2 : parseFloat a2 with
      | none => simp only [parseArgs, h1, h2]
      | some v2 =>
        cases h3 : parseFloat a3 with
        | none => simp only [parseArgs, h1, h2, h3]
        | some v3 =>
          rcases hp with hp | hp | hp
          · rw [h1] at hp
            exact Option.noConfusion hp
          · rw [h2] at hp
            exact Option.noConfusion hp
          · rw [h3] at hp
            exact Option.noConfusion hp

/-- Witness for the amended C9: one argument triggers the usage exit;
a non-numeric argument in the first, second or third positional slot
triggers the uncaught `ValueError`. -/
theorem parseArgs_invalid_behaviour_inst :
    parseArgs ["script.py"] = .usageExit usageMsg 1 ∧
      parseArgs ["script.py", "abc", "1", "2"] = .uncaught .valueError ∧
      parseArgs ["script.py", "1", "abc", "2"] = .uncaught .valueError ∧
      parseArgs ["script.py", "1", "2", "abc"] = .uncaught .valueError := by
  refine ⟨?_, ?_, ?_, ?_⟩
  · exact (parseArgs_invalid_behaviour ["script.py"] "x" "x" "x" "x").1 (by decide)
  · exact (parseArgs_invalid_behaviour ["x"] "script.py" "abc" "1" "2").2 (Or.inl rfl)
  · exact (parseArgs_invalid_behaviour ["x"] "script.py" "1" "abc" "2").2 (Or.inr (Or.inl rfl))
  · exact (parseArgs_invalid_behaviour ["x"] "script.py" "1" "2" "abc").2 (Or.inr (Or.inr rfl))

/-- Claim C10: whenever `haversine` returns a value, it lies in the
closed interval `[0, 6371·π]` — never negative and never beyond the
antipodal distance. -/
theorem haversine_range (lat1 lon1 lat2 lon2 d : ℝ)
    (h : haversine lat1 lon1 lat2 lon2 = .ok d) :
    0 ≤ d ∧ d ≤ 6371 * Real.pi := by
  rw [haversine_eq] at h
  injection h with h
  rw [← h]
  exact haversineSpec_bounds lat1 lon1 lat2 lon2

/-- Witness for C10 at the origin, where the distance is 0. -/
theorem haversine_range_inst : (0:ℝ) ≤ 0 ∧ (0:ℝ) ≤ 6371 * Real.pi :=
  haversine_range 0 0 0 0 0 haversine_zero

end Airports
